import Mathlib

/-!
Verification of the adaptive caching and deduplication engine of the
`kiro2cc` proxy (response cache, request deduplicator/merger, predictive
cache, context compressor).

Modelling conventions, used uniformly below:
* Go strings (byte strings) are modelled as `List Char`;
* Go `float64` similarity scores are modelled as exact rationals `ℚ`;
* `time.Time` instants and `time.Duration` values are modelled as integer
  numbers of seconds;
* the deterministic `md5(json(x))` hash keys are modelled by the hashed
  payload `x` itself (the hash is a deterministic function of exactly the
  serialized fields, and the design treats it as a content key);
* Go maps are modelled as association lists with unique keys, map
  assignment as replace-or-append, and the lock-protected critical
  sections of the Go code as atomic state transitions.
-/

namespace Kiro

/-- Go strings, as lists of characters. -/
abbrev Str := List Char

/-- Raw upstream response bodies (`[]byte` / `interface{}` response values). -/
abbrev Value := Str

/-- `ContentBlock` of `main.go`: a typed message content block (only the
fields read by `getMessageContent` are carried). -/
structure ContentBlock where
  btype : Str
  text : Option Str
  content : Option Str
deriving DecidableEq

/-- The dynamic `Content any` field of a message: either a plain string or
a list of typed blocks, resolved at ingestion. -/
inductive MessageContent where
  | text (s : Str)
  | blocks (bs : List ContentBlock)
deriving DecidableEq

/-- `Message` (a.k.a. `AnthropicRequestMessage`): role plus content. -/
structure Message where
  role : Str
  content : MessageContent
deriving DecidableEq

/-- `AnthropicSystemMessage` of `main.go`. -/
structure AnthropicSystemMessage where
  stype : Str
  text : Str
deriving DecidableEq

/-- `AnthropicTool` of `main.go` (the input schema is carried in its
serialized form). -/
structure AnthropicTool where
  name : Str
  description : Str
  inputSchema : Str
deriving DecidableEq

/-- `AnthropicRequest` of `main.go`. -/
structure AnthropicRequest where
  model : Str
  maxTokens : Int
  messages : List Message
  system : List AnthropicSystemMessage
  tools : List AnthropicTool
  stream : Bool
  temperature : Option ℚ
  metadata : List (Str × Str)
deriving DecidableEq

/-- The fallback text `getMessageContent` substitutes for empty or
unrecognized content. -/
def placeholderContent : Str := "answer for user qeustion".toList

/-- The texts collected from a block list by `getMessageContent`:
`tool_result` blocks contribute their `content`, `text` blocks their
`text`. -/
def blockTexts (bs : List ContentBlock) : List Str :=
  bs.filterMap fun cb =>
    if cb.btype = "tool_result".toList then cb.content
    else if cb.btype = "text".toList then cb.text
    else none

/-- `getMessageContent` of `main.go`: extract the text of a message. -/
def getMessageContent : MessageContent → Str
  | .text s => if s = [] then placeholderContent else s
  | .blocks bs =>
    let texts := blockTexts bs
    if texts = [] then placeholderContent
    else List.intercalate "\n".toList texts

/-- Association-list lookup (Go map read). -/
def alookup {α β : Type} [DecidableEq α] (k : α) : List (α × β) → Option β
  | [] => none
  | (k', v) :: rest => if k = k' then some v else alookup k rest

/-- Association-list assignment (Go map write): replace in place, or append. -/
def aupdate {α β : Type} [DecidableEq α] (k : α) (v : β) : List (α × β) → List (α × β)
  | [] => [(k, v)]
  | (k', v') :: rest => if k = k' then (k, v) :: rest else (k', v') :: aupdate k v rest

/-- Association-list deletion (Go map `delete`): removes the (unique) binding. -/
def aerase {α β : Type} [DecidableEq α] (k : α) : List (α × β) → List (α × β)
  | [] => []
  | (k', v') :: rest => if k = k' then rest else (k', v') :: aerase k rest

/-- The keys of an association list. -/
def akeys {α β : Type} (l : List (α × β)) : List α := l.map Prod.fst

/-! ### Similarity kernel of the request deduplicator (`part_000`) -/

/-- One cell of the Levenshtein DP matrix of `levenshteinDistance`:
`levMatrix s1 s2 i j` is `matrix[i][j]`, the distance between the first
`i` characters of `s1` and the first `j` characters of `s2`.  Cell
`(i+1, j+1)` compares `s1[i]` with `s2[j]`. -/
def levMatrix (s1 s2 : Str) : Nat → Nat → Nat
  | i, 0 => i
  | 0, j + 1 => j + 1
  | i + 1, j + 1 =>
    let cost : Nat := if s1.getD i ' ' = s2.getD j ' ' then 0 else 1
    let deletion := levMatrix s1 s2 i (j + 1) + 1
    let insertion := levMatrix s1 s2 (i + 1) j + 1
    let substitution := levMatrix s1 s2 i j + cost
    min (min deletion insertion) substitution
termination_by i j => (i, j)

/-- `RequestDeduplicator.levenshteinDistance`: empty-input shortcuts, then
truncation of inputs longer than 500 units, then the DP matrix. -/
def levenshteinDistance (s1 s2 : Str) : Nat :=
  if s1 = [] then s2.length
  else if s2 = [] then s1.length
  else
    let t1 := if s1.length > 500 then s1.take 500 else s1
    let t2 := if s2.length > 500 then s2.take 500 else s2
    levMatrix t1 t2 t1.length t2.length

/-- `RequestDeduplicator.calculateTextSimilarity`. -/
def calculateTextSimilarity (text1 text2 : Str) : ℚ :=
  if text1 = text2 then 1
  else if text1 = [] ∨ text2 = [] then 0
  else
    let maxLen := max text1.length text2.length
    if maxLen = 0 then 1
    else 1 - (levenshteinDistance text1 text2 : ℚ) / (maxLen : ℚ)

/-- The spec's `editDistance`: classic Levenshtein distance computed after
truncating each input longer than 500 units to its first 500 units.
Modelled from the spec's words for the refinement comparison with
`levenshteinDistance`. -/
def specEditDistance (a b : Str) : Nat :=
  levMatrix (a.take 500) (b.take 500) (a.take 500).length (b.take 500).length

/-- The spec's closed formula for `textSimilarity`:
`1 - editDistance(a,b) / max(len(a), len(b))`.  Modelled from the spec's
words for the refinement comparison with `calculateTextSimilarity`
(in `ℚ`, `0 / 0 = 0`, so two empty inputs yield `1`). -/
def specTextSimilarity (a b : Str) : ℚ :=
  1 - (specEditDistance a b : ℚ) / ((max a.length b.length : Nat) : ℚ)

/-- The content of the last `user`-role message of a message list, or the
empty string when there is none (the backwards scan of
`calculateContentSimilarity` / `generateMergeKey`). -/
def lastUserMessage (msgs : List Message) : Str :=
  match msgs.reverse.find? (fun m => m.role = "user".toList) with
  | some m => getMessageContent m.content
  | none => []

/-- `RequestDeduplicator.calculateContentSimilarity`: compare the last
user messages of the two requests. -/
def calculateContentSimilarity (req1 req2 : AnthropicRequest) : ℚ :=
  if req1.messages = [] ∧ req2.messages = [] then 1
  else if req1.messages = [] ∨ req2.messages = [] then 0
  else calculateTextSimilarity (lastUserMessage req1.messages) (lastUserMessage req2.messages)

/-! ### Request deduplicator (`part_000`) -/

/-- `DedupeResponse`: the terminal outcome delivered on a response channel. -/
structure DedupeResponse where
  response : Option Value
  error : Option Str
  fromCache : Bool
  merged : Bool
deriving DecidableEq

/-- `ActiveRequest`: an in-flight execution.  Channels are modelled by
numeric identifiers drawn from a fresh-channel counter. -/
structure ActiveRequest where
  request : AnthropicRequest
  responseCh : Nat
  subscribers : List Nat
  startTime : Int
  requestHash : AnthropicRequest
deriving DecidableEq

/-- `RecentRequest`: memo of a just-completed request. -/
structure RecentRequest where
  request : AnthropicRequest
  response : Value
  timestamp : Int
deriving DecidableEq

/-- `MergeableGroup`: a family of similar requests with its last response. -/
structure MergeableGroup where
  baseRequest : AnthropicRequest
  variations : List AnthropicRequest
  lastMerged : Int
  mergeCount : Int
  responseCache : Option Value
deriving DecidableEq

/-- The payload hashed by `generateMergeKey`: model, message count, and
the last user message truncated to its first 100 characters. -/
structure MergeKey where
  model : Str
  messageCount : Nat
  lastUserMsg : Str
deriving DecidableEq

/-- `RequestDeduplicator.generateMergeKey` (the md5 of the JSON of this
payload is modelled by the payload itself). -/
def generateMergeKey (req : AnthropicRequest) : MergeKey :=
  let lastUser :=
    match req.messages.reverse.find? (fun m => m.role = "user".toList) with
    | some m =>
      let content := getMessageContent m.content
      if content.length > 100 then content.take 100 else content
    | none => []
  { model := req.model, messageCount := req.messages.length, lastUserMsg := lastUser }

/-- `RequestDeduplicator.generateRequestHash` (md5 of the JSON of the whole
request, modelled by the request itself). -/
def generateRequestHash (req : AnthropicRequest) : AnthropicRequest := req

/-- The shared state of the `RequestDeduplicator`, plus a counter supplying
fresh channel identifiers. -/
structure DedupState where
  activeRequests : List (AnthropicRequest × ActiveRequest)
  recentRequests : List (AnthropicRequest × RecentRequest)
  mergeableGroups : List (MergeKey × MergeableGroup)
  nextChannel : Nat
deriving DecidableEq

/-- `RequestDeduplicator.canMergeWithGroup`: same model, message-count
difference at most 2, content similarity above 0.7. -/
def canMergeWithGroup (req : AnthropicRequest) (group : MergeableGroup) : Prop :=
  req.model = group.baseRequest.model ∧
  ((req.messages.length : Int) - (group.baseRequest.messages.length : Int)).natAbs ≤ 2 ∧
  calculateContentSimilarity req group.baseRequest > (7 : ℚ) / 10

instance (req : AnthropicRequest) (group : MergeableGroup) :
    Decidable (canMergeWithGroup req group) := by
  unfold canMergeWithGroup; infer_instance

/-- `RequestDeduplicator.tryMergeRequest`: try to join an existing
mergeable group, mutating the group on success; returns the group's
cached response when it has one. -/
def tryMergeRequest (st : DedupState) (now : Int) (req : AnthropicRequest) :
    Option DedupeResponse × DedupState :=
  let mergeKey := generateMergeKey req
  match alookup mergeKey st.mergeableGroups with
  | none => (none, st)
  | some group =>
    if canMergeWithGroup req group ∧ now - group.lastMerged < 5 * 60 then
      let vars0 := group.variations ++ [req]
      let vars := if vars0.length > 10 then vars0.tail else vars0
      let group' : MergeableGroup :=
        { group with variations := vars, mergeCount := group.mergeCount + 1, lastMerged := now }
      let st' := { st with mergeableGroups := aupdate mergeKey group' st.mergeableGroups }
      match group.responseCache with
      | some r => (some ⟨some r, none, true, true⟩, st')
      | none => (none, st')
    else (none, st)

/-- What `ProcessRequest` hands back to its caller: a subscription to an
existing in-flight execution, an immediately-completed (buffered and
closed) channel, or a fresh primary channel whose execution was started. -/
inductive ProcessOutcome where
  | subscribed (ch : Nat)
  | immediate (resp : DedupeResponse)
  | started (ch : Nat)
deriving DecidableEq

/-- The merge-or-start tail of `ProcessRequest` (steps 3 and 4). -/
def processMergeOrStart (st : DedupState) (now : Int) (req : AnthropicRequest) :
    ProcessOutcome × DedupState :=
  match tryMergeRequest st now req with
  | (some resp, st') => (.immediate resp, st')
  | (none, st') =>
    let ch := st'.nextChannel
    let active : ActiveRequest :=
      { request := req, responseCh := ch, subscribers := [], startTime := now,
        requestHash := generateRequestHash req }
    (.started ch,
      { st' with
        activeRequests := aupdate (generateRequestHash req) active st'.activeRequests,
        nextChannel := ch + 1 })

/-- `RequestDeduplicator.ProcessRequest`: subscribe to an active identical
request, serve a fresh recent record, join a mergeable group, or start a
new execution. -/
def processRequest (st : DedupState) (now : Int) (req : AnthropicRequest) :
    ProcessOutcome × DedupState :=
  let reqHash := generateRequestHash req
  match alookup reqHash st.activeRequests with
  | some active =>
    let ch := st.nextChannel
    (.subscribed ch,
      { st with
        activeRequests :=
          aupdate reqHash { active with subscribers := active.subscribers ++ [ch] }
            st.activeRequests,
        nextChannel := ch + 1 })
  | none =>
    match alookup reqHash st.recentRequests with
    | some recent =>
      if now - recent.timestamp < 2 * 60 then
        (.immediate { response := some recent.response, error := none,
                      fromCache := true, merged := false }, st)
      else processMergeOrStart st now req
    | none => processMergeOrStart st now req

/-- `RequestDeduplicator.updateMergeableGroup`: never caches an error;
on success stores the response in the request's family group, creating
the group if needed. -/
def updateMergeableGroup (st : DedupState) (now : Int) (req : AnthropicRequest)
    (result : Except Str Value) : DedupState :=
  match result with
  | .error _ => st
  | .ok response =>
    let mergeKey := generateMergeKey req
    match alookup mergeKey st.mergeableGroups with
    | some group =>
      let group' := { group with responseCache := some response, lastMerged := now }
      { st with mergeableGroups := aupdate mergeKey group' st.mergeableGroups }
    | none =>
      let group' : MergeableGroup :=
        { baseRequest := req, variations := [req], lastMerged := now,
          mergeCount := 1, responseCache := some response }
      { st with mergeableGroups := aupdate mergeKey group' st.mergeableGroups }

/-- The completion half of `RequestDeduplicator.executeRequest`, after the
upstream call returned `result`: build the `DedupeResponse`, deliver it to
the primary channel and every subscriber, write the recent record (success
only), update the mergeable group, and drop the active record.  The
returned list is the fan-out: one `(channel, response)` delivery per
waiter. -/
def completeRequest (st : DedupState) (now : Int) (active : ActiveRequest)
    (result : Except Str Value) : DedupState × List (Nat × DedupeResponse) :=
  let dedupeResp : DedupeResponse :=
    match result with
    | .ok v => { response := some v, error := none, fromCache := false, merged := false }
    | .error e => { response := none, error := some e, fromCache := false, merged := false }
  let deliveries := (active.responseCh :: active.subscribers).map (fun ch => (ch, dedupeResp))
  let st1 :=
    match result with
    | .ok v =>
      let recent : RecentRequest := { request := active.request, response := v, timestamp := now }
      { st with recentRequests := aupdate active.requestHash recent st.recentRequests }
    | .error _ => st
  let st2 := updateMergeableGroup st1 now active.request result
  let st3 := { st2 with activeRequests := aerase active.requestHash st2.activeRequests }
  (st3, deliveries)

/-! ### Response cache (`part_003`) -/

/-- `CacheEntry` of the response cache. -/
structure CacheEntry where
  response : Value
  createdAt : Int
  accessCount : Int
deriving DecidableEq

/-- The payload hashed by `ResponseCache.generateCacheKey` and
`PredictiveCache.generateKey`: exactly the model, the messages, and the
max-tokens field of the request. -/
structure CacheKeyData where
  model : Str
  messages : List Message
  maxTokens : Int
deriving DecidableEq

/-- `ResponseCache.generateCacheKey`: empty key (`none`) for streaming
requests and requests without messages, otherwise the (hash of the)
model/messages/max-tokens triple. -/
def generateCacheKey (req : AnthropicRequest) : Option CacheKeyData :=
  if req.stream ∨ req.messages = [] then none
  else some ⟨req.model, req.messages, req.maxTokens⟩

/-- `ResponseCache`: bounded TTL cache of completed responses. -/
structure ResponseCache where
  cache : List (CacheKeyData × CacheEntry)
  maxSize : Nat
  ttl : Int
deriving DecidableEq

/-- The scan of `ResponseCache.evictLRU`: keep the entry with the smaller
access count, ties broken by the strictly earlier creation time (the
first such entry wins on full ties). -/
def lruScan (best : CacheKeyData × CacheEntry) :
    List (CacheKeyData × CacheEntry) → CacheKeyData × CacheEntry
  | [] => best
  | p :: rest =>
    if p.2.accessCount < best.2.accessCount ∨
        (p.2.accessCount = best.2.accessCount ∧ p.2.createdAt < best.2.createdAt)
    then lruScan p rest
    else lruScan best rest

/-- The entry `ResponseCache.evictLRU` selects, if the cache is nonempty. -/
def lruVictim : List (CacheKeyData × CacheEntry) → Option (CacheKeyData × CacheEntry)
  | [] => none
  | p :: rest => some (lruScan p rest)

/-- `ResponseCache.evictLRU`: delete the selected entry. -/
def evictLRU (cache : List (CacheKeyData × CacheEntry)) : List (CacheKeyData × CacheEntry) :=
  match lruVictim cache with
  | none => cache
  | some victim => aerase victim.1 cache

/-- `ResponseCache.Set`: skip streaming/keyless requests; evict one entry
when at capacity; store the fresh entry with access count 1. -/
def rcSet (rc : ResponseCache) (now : Int) (req : AnthropicRequest) (response : Value) :
    ResponseCache :=
  if req.stream then rc
  else
    match generateCacheKey req with
    | none => rc
    | some key =>
      let cache := if rc.cache.length ≥ rc.maxSize then evictLRU rc.cache else rc.cache
      { rc with cache := aupdate key ⟨response, now, 1⟩ cache }

/-- `ResponseCache.Get`: miss on streaming/keyless requests, on absent
keys, and on entries older than the TTL (the access-count bump and the
asynchronous deletion of the expired entry mutate state but not the
returned pair). -/
def rcGet (rc : ResponseCache) (now : Int) (req : AnthropicRequest) : Option Value × Bool :=
  if req.stream then (none, false)
  else
    match generateCacheKey req with
    | none => (none, false)
    | some key =>
      match alookup key rc.cache with
      | none => (none, false)
      | some entry =>
        if now - entry.createdAt > rc.ttl then (none, false)
        else (some entry.response, true)

/-! ### Predictive cache (`request_batcher.go`, second file) -/

/-- `PredictiveCacheEntry`. -/
structure PredictiveCacheEntry where
  response : Value
  createdAt : Int
  accessCount : Int
  lastAccess : Int
  confidence : ℚ
  isPrefetch : Bool
deriving DecidableEq

/-- `PredictiveCache.generateKey`: always the (hash of the)
model/messages/max-tokens triple, with no streaming guard. -/
def pcGenerateKey (req : AnthropicRequest) : CacheKeyData :=
  ⟨req.model, req.messages, req.maxTokens⟩

/-- `PredictiveCache.parseKeyToRequest`: the source's "simplified
implementation" returns `nil` for every key. -/
def parseKeyToRequest (_key : CacheKeyData) : Option AnthropicRequest := none

/-- `PredictiveCache.isExpired`: 10-minute TTL, 30 minutes for prefetched
entries. -/
def pcIsExpired (now : Int) (entry : PredictiveCacheEntry) : Bool :=
  let ttl : Int := if entry.isPrefetch then 30 * 60 else 10 * 60
  decide (now - entry.createdAt > ttl)

/-- The word multiset of a text, split on whitespace (Go `strings.Fields`). -/
def fieldsOf (s : Str) : List Str :=
  (s.splitOnP (fun c => c.isWhitespace)).filter (fun w => w ≠ [])

/-- Lowercase a string character-wise (Go `strings.ToLower`). -/
def toLowerStr (s : Str) : Str := s.map Char.toLower

/-- `PredictiveCache.extractTextFromMessages`: the nonempty message texts,
lowercased and joined with spaces. -/
def extractTextFromMessages (msgs : List Message) : Str :=
  let texts := (msgs.map (fun m => getMessageContent m.content)).filter (fun c => c ≠ [])
  List.intercalate " ".toList (texts.map toLowerStr)

/-- `PredictiveCache.calculateTextSimilarity`: Jaccard similarity of the
whitespace token sets. -/
def pcJaccardSimilarity (text1 text2 : Str) : ℚ :=
  let words1 := fieldsOf text1
  let words2 := fieldsOf text2
  if words1 = [] ∧ words2 = [] then 1
  else if words1 = [] ∨ words2 = [] then 0
  else
    let set1 := words1.dedup
    let set2 := words2.dedup
    let intersection := (set2.filter (fun w => w ∈ set1)).length
    let union := set1.length + (set2.filter (fun w => w ∉ set1)).length
    if union = 0 then 0
    else (intersection : ℚ) / (union : ℚ)

/-- `PredictiveCache.calculateContentSimilarity`. -/
def pcContentSimilarity (msgs1 msgs2 : List Message) : ℚ :=
  if msgs1 = [] ∧ msgs2 = [] then 1
  else if msgs1 = [] ∨ msgs2 = [] then 0
  else pcJaccardSimilarity (extractTextFromMessages msgs1) (extractTextFromMessages msgs2)

/-- `PredictiveCache.calculateSimilarity` (the spec's `requestSimilarity`):
0.3 model match + 0.2 message-count match + 0.5 content similarity,
normalized by the total weight 1.0. -/
def calculateSimilarity (req1 req2 : AnthropicRequest) : ℚ :=
  let score :=
    (if req1.model = req2.model then (3 : ℚ) / 10 else 0) +
    (if req1.messages.length = req2.messages.length then (2 : ℚ) / 10 else 0) +
    pcContentSimilarity req1.messages req2.messages * ((5 : ℚ) / 10)
  let factors : ℚ := 3 / 10 + 2 / 10 + 5 / 10
  score / factors

/-- One step of the scan in `PredictiveCache.findSimilarRequest`: skip
expired entries, parse the cached key back into a request (which always
fails in the source), and keep the best similarity at or above the
threshold. -/
def findSimilarStep (now : Int) (req : AnthropicRequest) (threshold : ℚ)
    (acc : Option PredictiveCacheEntry × ℚ) (p : CacheKeyData × PredictiveCacheEntry) :
    Option PredictiveCacheEntry × ℚ :=
  if pcIsExpired now p.2 then acc
  else
    match parseKeyToRequest p.1 with
    | none => acc
    | some cachedReq =>
      let similarity := calculateSimilarity req cachedReq
      if similarity > acc.2 ∧ similarity ≥ threshold then (some p.2, similarity) else acc

/-- `PredictiveCache.findSimilarRequest`. -/
def findSimilarRequest (cache : List (CacheKeyData × PredictiveCacheEntry)) (now : Int)
    (req : AnthropicRequest) (threshold : ℚ) : Option PredictiveCacheEntry × ℚ :=
  cache.foldl (findSimilarStep now req threshold) (none, 0)

/-- `PredictiveCache.Get`: exact-key hit with confidence 1.0, else the
fuzzy scan (the access-count/last-access bumps mutate the matched entry
but not the returned triple). -/
def pcGet (cache : List (CacheKeyData × PredictiveCacheEntry)) (threshold : ℚ) (now : Int)
    (req : AnthropicRequest) : Option Value × Bool × ℚ :=
  let key := pcGenerateKey req
  let fuzzy :=
    match findSimilarRequest cache now req threshold with
    | (some bestMatch, similarity) =>
      if similarity ≥ threshold then (some bestMatch.response, true, similarity)
      else (none, false, 0)
    | (none, _) => (none, false, 0)
  match alookup key cache with
  | some entry => if ¬ pcIsExpired now entry then (some entry.response, true, 1) else fuzzy
  | none => fuzzy

/-- The default similarity threshold of the predictive cache. -/
def predictiveSimilarityThreshold : ℚ := 8 / 10

/-! ### Context compressor (`context_compressor.go`) -/

/-- `CompressedContext`: one cached compression result. -/
structure CompressedContext where
  originalMessages : List Message
  compressedMessages : List Message
  summary : Str
  compressionRatio : ℚ
  createdAt : Int
  usageCount : Int
deriving DecidableEq

/-- `MessageImportance`: the transient per-message score of one
compression pass. -/
structure MessageImportance where
  index : Nat
  score : ℚ
  reason : List Str
  isSystem : Bool
  isRecent : Bool
  hasKeywords : Bool
deriving DecidableEq

/-- The configuration of the `ContextCompressor` (its two tuning fields). -/
structure CompressorConfig where
  maxContextLength : Nat
  compressionRatio : ℚ
deriving DecidableEq

/-- The module-level `contextCompressor` defaults: budget 4000, ratio 0.6. -/
def contextCompressor : CompressorConfig := ⟨4000, 3 / 5⟩

/-- The mutable caches of the `ContextCompressor` (keys are md5 hashes of
the JSON of the message list, modelled by the list itself). -/
structure CompressorState where
  compressionCache : List (List Message × CompressedContext)
  summaryCache : List (List Message × Str)
deriving DecidableEq

/-- Is `sub` a substring of `s` (Go `strings.Contains s sub`)? -/
def isSubstring (sub : Str) : Str → Bool
  | [] => sub.isPrefixOf []
  | c :: rest => sub.isPrefixOf (c :: rest) || isSubstring sub rest

/-- The bilingual keyword list of `hasImportantKeywords`. -/
def importantKeywords : List Str :=
  (["error", "错误", "问题", "help", "帮助",
    "how", "what", "why", "when", "where",
    "如何", "什么", "为什么", "怎么", "哪里",
    "code", "代码", "function", "函数",
    "bug", "fix", "修复", "解决"]).map String.toList

/-- `ContextCompressor.hasImportantKeywords`: any keyword occurs in the
lowercased content. -/
def hasImportantKeywords (content : Str) : Bool :=
  importantKeywords.any (fun kw => isSubstring kw (toLowerStr content))

/-- `ContextCompressor.calculateTotalLength`. -/
def calculateTotalLength (messages : List Message) : Nat :=
  (messages.map (fun m => (getMessageContent m.content).length)).sum

/-- The importance score of the message at position `i` of `n` (the body of
`calculateMessageImportance`): system bonus 10, recency bonus 5·rank for
the last three, keyword bonus 3, long-message bonus 2, question bonus 1.5,
user bonus 1. -/
def messageScore (n : Nat) (i : Nat) (msg : Message) : ℚ :=
  let content := getMessageContent msg.content
  let recentThreshold : Int := (n : Int) - 3
  (if msg.role = "system".toList then 10 else 0) +
  (if (i : Int) ≥ recentThreshold then 5 * (((i : Int) - recentThreshold + 1 : Int) : ℚ) else 0) +
  (if hasImportantKeywords content then 3 else 0) +
  (if content.length > 200 then 2 else 0) +
  (if content.contains '?' ∨ content.contains '？' then (3 : ℚ) / 2 else 0) +
  (if msg.role = "user".toList then 1 else 0)

/-- The reason tags collected alongside the score (the Go code joins them
with commas into one string; the list of tags is kept here). -/
def messageReasons (n : Nat) (i : Nat) (msg : Message) : List Str :=
  let content := getMessageContent msg.content
  (if msg.role = "system".toList then ["system_message".toList] else []) ++
  (if (i : Int) ≥ (n : Int) - 3 then ["recent_message".toList] else []) ++
  (if hasImportantKeywords content then ["has_keywords".toList] else []) ++
  (if content.length > 200 then ["long_message".toList] else []) ++
  (if content.contains '?' ∨ content.contains '？' then ["question".toList] else []) ++
  (if msg.role = "user".toList then ["user_message".toList] else [])

/-- `ContextCompressor.calculateMessageImportance`. -/
def calculateMessageImportance (messages : List Message) : List MessageImportance :=
  messages.enum.map fun p =>
    let content := getMessageContent p.2.content
    { index := p.1,
      score := messageScore messages.length p.1 p.2,
      reason := messageReasons messages.length p.1 p.2,
      isSystem := decide (p.2.role = "system".toList),
      isRecent := decide ((p.1 : Int) ≥ (messages.length : Int) - 3),
      hasKeywords := hasImportantKeywords content }

/-- The greedy accumulation loop of `selectImportantMessages`, over the
importance records in their sorted order. -/
def selectLoop (messages : List Message) (targetLength : Nat) :
    List MessageImportance → Nat → List Nat → List Nat
  | [], _, acc => acc
  | imp :: rest, currentLength, acc =>
    let msgLength :=
      match messages.get? imp.index with
      | some m => (getMessageContent m.content).length
      | none => 0
    if currentLength + msgLength ≤ targetLength then
      selectLoop messages targetLength rest (currentLength + msgLength) (acc ++ [imp.index])
    else selectLoop messages targetLength rest currentLength acc

/-- `ContextCompressor.selectImportantMessages`: greedy selection in
descending-score order, returned as ascending indices. -/
def selectImportantMessages (messages : List Message) (importance : List MessageImportance)
    (targetLength : Nat) : List Nat :=
  let indices := selectLoop messages targetLength importance 0 []
  indices.dedup.insertionSort (· ≤ ·)

/-- The `selected` predicate assembled at the start of
`ensureEssentialMessages`: the greedily selected indices, every
system-role position, and the final two positions. -/
def isSelected (messages : List Message) (selectedIndices : List Nat) (i : Nat) : Bool :=
  selectedIndices.contains i ||
  (match messages.get? i with
   | some m => decide (m.role = "system".toList)
   | none => false) ||
  (decide (2 ≤ messages.length) &&
    (decide (i = messages.length - 1) || decide (i = messages.length - 2)))

/-- The bilingual stopword list of `isImportantWord`. -/
def stopWords : List Str :=
  (["the", "and", "or", "but",
    "in", "on", "at", "to",
    "for", "of", "with", "by",
    "是", "的", "了", "在",
    "有", "我", "你", "他"]).map String.toList

/-- `ContextCompressor.isImportantWord`. -/
def isImportantWord (word : Str) : Bool := ¬ stopWords.contains word

/-- The qualifying keyword occurrences counted by `generateSimpleSummary`:
lowercased whitespace-split words longer than 3 characters that are not
stopwords, in message order with multiplicity. -/
def qualifiedOccurrences (run : List Message) : List Str :=
  (run.map fun m =>
    (fieldsOf (toLowerStr (getMessageContent m.content))).filter
      (fun w => decide (w.length > 3) && isImportantWord w)).flatten

/-- The topic list of `generateSimpleSummary`: the distinct qualifying
words with at least two occurrences, sorted lexicographically, truncated
to the first three. -/
def summaryTopics (run : List Message) : List Str :=
  let occ := qualifiedOccurrences run
  let candidates := occ.dedup.filter (fun w => 2 ≤ occ.count w)
  let sorted := candidates.insertionSort (· ≤ ·)
  if sorted.length > 3 then sorted.take 3 else sorted

/-- `ContextCompressor.generateSimpleSummary`. -/
def generateSimpleSummary (run : List Message) : Str :=
  if run = [] then []
  else
    let tops := summaryTopics run
    if tops = [] then
      "跳过了".toList ++ (Nat.repr run.length).toList ++ "条消息".toList
    else
      "跳过了".toList ++ (Nat.repr run.length).toList ++ "条关于".toList ++
        List.intercalate "、".toList tops ++ "的消息".toList

/-- `ContextCompressor.createSummary`: empty for an empty run, otherwise
the cached summary for this run if present, else a freshly generated and
cached one. -/
def summarize (st : CompressorState) (run : List Message) : Str × CompressorState :=
  if run = [] then ([], st)
  else
    match alookup run st.summaryCache with
    | some s => (s, st)
    | none =>
      let s := generateSimpleSummary run
      (s, { st with summaryCache := aupdate run s st.summaryCache })

/-- The synthesized system-role placeholder `[摘要: …]` message. -/
def placeholderMessage (summary : Str) : Message :=
  { role := "system".toList, content := .text ("[摘要: ".toList ++ summary ++ "]".toList) }

/-- The summary prefix emitted before the message at index `i` when the
indices since `lastIncluded` were skipped (the gap branch of the output
loop of `ensureEssentialMessages`). -/
def gapPrefix (messages : List Message) (lastIncluded : Int) (i : Nat) (st : CompressorState) :
    List Message × CompressorState :=
  if (i : Int) > lastIncluded + 1 then
    let gapStart := (lastIncluded + 1).toNat
    let run := (messages.drop gapStart).take (i - gapStart)
    let p := summarize st run
    (if p.1 = [] then [] else [placeholderMessage p.1], p.2)
  else ([], st)

/-- The output loop of `ensureEssentialMessages`, over the indexed
messages, threading the summary cache. -/
def ensureLoop (messages : List Message) (selected : Nat → Bool) :
    List (Nat × Message) → Int → CompressorState → List Message × CompressorState
  | [], _, st => ([], st)
  | (i, msg) :: rest, lastIncluded, st =>
    if selected i then
      let p := gapPrefix messages lastIncluded i st
      let t := ensureLoop messages selected rest (i : Int) p.2
      (p.1 ++ msg :: t.1, t.2)
    else ensureLoop messages selected rest lastIncluded st

/-- `ContextCompressor.ensureEssentialMessages`. -/
def ensureEssentialMessages (st : CompressorState) (messages : List Message)
    (selectedIndices : List Nat) : List Message × CompressorState :=
  ensureLoop messages (isSelected messages selectedIndices) messages.enum (-1) st

/-- `ContextCompressor.performCompression`: score, sort by descending
score (Go uses an unstable `sort.Slice`; a deterministic sort is one of
its admissible outcomes), select greedily, and re-insert essentials.  -/
def performCompression (cfg : CompressorConfig) (st : CompressorState)
    (messages : List Message) : List Message × CompressorState :=
  if messages.length ≤ 2 then (messages, st)
  else
    let importance := calculateMessageImportance messages
    let sorted := importance.insertionSort (fun a b => a.score ≥ b.score)
    let targetLength := (((calculateTotalLength messages : ℚ) * cfg.compressionRatio).floor).toNat
    let selectedIndices := selectImportantMessages messages sorted targetLength
    ensureEssentialMessages st messages selectedIndices

/-- `ContextCompressor.CompressRequest`: no-op below the thresholds;
otherwise serve the compression cache or compress and fill it. -/
def compressRequest (cfg : CompressorConfig) (st : CompressorState) (now : Int)
    (req : AnthropicRequest) : AnthropicRequest × CompressorState :=
  if req.messages.length ≤ 2 then (req, st)
  else
    let totalLength := calculateTotalLength req.messages
    if totalLength ≤ cfg.maxContextLength then (req, st)
    else
      match alookup req.messages st.compressionCache with
      | some compressed =>
        let bumped := { compressed with usageCount := compressed.usageCount + 1 }
        ({ req with messages := compressed.compressedMessages },
          { st with compressionCache := aupdate req.messages bumped st.compressionCache })
      | none =>
        let p := performCompression cfg st req.messages
        let ctx : CompressedContext :=
          { originalMessages := req.messages, compressedMessages := p.1, summary := [],
            compressionRatio := (calculateTotalLength p.1 : ℚ) / (totalLength : ℚ),
            createdAt := now, usageCount := 1 }
        ({ req with messages := p.1 },
          { p.2 with compressionCache := aupdate req.messages ctx p.2.compressionCache })

/-! ### Concrete sample inputs used by the verification -/

/-- A concrete organic predictive-cache entry created at time 0. -/
def samplePCEntry : PredictiveCacheEntry :=
  { response := "resp".toList, createdAt := 0, accessCount := 1, lastAccess := 0,
    confidence := 1, isPrefetch := false }

/-- A concrete stored request: model `m`, one `hello` user message,
max-tokens 10. -/
def samplePCReq1 : AnthropicRequest :=
  { model := "m".toList, maxTokens := 10,
    messages := [⟨"user".toList, .text "hello".toList⟩],
    system := [], tools := [], stream := false, temperature := none, metadata := [] }

/-- The same request with max-tokens 20: a different exact key, but
`requestSimilarity` 1.0 against `samplePCReq1`. -/
def samplePCReq2 : AnthropicRequest :=
  { model := "m".toList, maxTokens := 20,
    messages := [⟨"user".toList, .text "hello".toList⟩],
    system := [], tools := [], stream := false, temperature := none, metadata := [] }

/-- The 501-character string used to refute the unrestricted formula. -/
def longA : Str := List.replicate 501 'a'

/-- A one-message excluded run whose strictly most frequent qualifying
term (`zzzz`, three occurrences) is alphabetically last among the
qualifying terms. -/
def sampleRun : List Message :=
  [⟨"user".toList, .text "zzzz zzzz zzzz aaaa aaaa bbbb bbbb cccc cccc".toList⟩]

/-! ## Supporting lemmas -/

theorem alookup_aupdate_self {α β : Type} [DecidableEq α] (k : α) (v : β) (l : List (α × β)) :
    alookup k (aupdate k v l) = some v := by
  induction l with
  | nil => simp [aupdate, alookup]
  | cons p rest ih =>
    by_cases h : k = p.1
    · simp [aupdate, alookup, h]
    · simp [aupdate, alookup, h, ih]

theorem akeys_aupdate_some {α β : Type} [DecidableEq α] {k : α} {w : β} (v : β)
    {l : List (α × β)} (h : alookup k l = some w) : akeys (aupdate k v l) = akeys l := by
  induction l with
  | nil => simp [alookup] at h
  | cons p rest ih =>
    by_cases hk : k = p.1
    · simp [aupdate, akeys, hk]
    · simp only [alookup, if_neg hk] at h
      have := ih h
      simp only [akeys] at this
      simp [aupdate, akeys, hk, this]

theorem aupdate_length_some {α β : Type} [DecidableEq α] {k : α} {w : β} (v : β)
    {l : List (α × β)} (h : alookup k l = some w) : (aupdate k v l).length = l.length := by
  induction l with
  | nil => simp [alookup] at h
  | cons p rest ih =>
    by_cases hk : k = p.1
    · simp [aupdate, hk]
    · simp only [alookup, if_neg hk] at h
      simp [aupdate, hk, ih h]

theorem aupdate_length_none {α β : Type} [DecidableEq α] {k : α} (v : β)
    {l : List (α × β)} (h : alookup k l = none) : (aupdate k v l).length = l.length + 1 := by
  induction l with
  | nil => simp [aupdate]
  | cons p rest ih =>
    by_cases hk : k = p.1
    · simp [alookup, hk] at h
    · simp only [alookup, if_neg hk] at h
      simp [aupdate, hk, ih h]

theorem aerase_length_some {α β : Type} [DecidableEq α] {k : α} {w : β}
    {l : List (α × β)} (h : alookup k l = some w) : (aerase k l).length + 1 = l.length := by
  induction l with
  | nil => simp [alookup] at h
  | cons p rest ih =>
    by_cases hk : k = p.1
    · simp [aerase, hk]
    · simp only [alookup, if_neg hk] at h
      simp [aerase, hk, ih h]

theorem aupdate_length_le {α β : Type} [DecidableEq α] (k : α) (v : β) (l : List (α × β)) :
    (aupdate k v l).length ≤ l.length + 1 := by
  cases h : alookup k l with
  | some w => rw [aupdate_length_some v h]; omega
  | none => rw [aupdate_length_none v h]

/-! ## C7: the compressor is a no-op below its thresholds -/

/-- **C7**: for every request with at most 2 messages, or whose total
content length is at most the configured budget, `CompressRequest`
returns the request unchanged (and leaves the compressor state alone). -/
theorem C7_compressRequest_noop (cfg : CompressorConfig) (st : CompressorState) (now : Int)
    (req : AnthropicRequest)
    (h : req.messages.length ≤ 2 ∨ calculateTotalLength req.messages ≤ cfg.maxContextLength) :
    compressRequest cfg st now req = (req, st) := by
  rcases h with h | h
  · simp [compressRequest, h]
  · unfold compressRequest
    by_cases h2 : req.messages.length ≤ 2 <;> simp [h2, h]

/-- Witness for C7 at a concrete request (one short message, default
compressor configuration). -/
theorem C7_compressRequest_noop_witness :
    compressRequest contextCompressor ⟨[], []⟩ 0
        { model := "m".toList, maxTokens := 10,
          messages := [⟨"user".toList, .text "hi".toList⟩],
          system := [], tools := [], stream := false, temperature := none, metadata := [] } =
      ({ model := "m".toList, maxTokens := 10,
         messages := [⟨"user".toList, .text "hi".toList⟩],
         system := [], tools := [], stream := false, temperature := none, metadata := [] },
       (⟨[], []⟩ : CompressorState)) :=
  C7_compressRequest_noop contextCompressor ⟨[], []⟩ 0 _ (Or.inl (by decide))

/-! ## C2: one execution per hash, identical fan-out -/

/-- **C2**: calling `ProcessRequest` while the hash already has an active
record only appends a fresh subscriber channel to that record — the active
key set, the recent records and the groups are untouched and no execution
is started — and when an execution completes, the primary channel and
every registered subscriber channel receive the very same
`DedupeResponse` (same response value, same error). -/
theorem C2_dedup_single_flight :
    (∀ (st : DedupState) (now : Int) (req : AnthropicRequest) (active : ActiveRequest),
      alookup (generateRequestHash req) st.activeRequests = some active →
      processRequest st now req =
        (.subscribed st.nextChannel,
         { st with
            activeRequests :=
              aupdate (generateRequestHash req)
                { active with subscribers := active.subscribers ++ [st.nextChannel] }
                st.activeRequests,
            nextChannel := st.nextChannel + 1 }) ∧
      akeys (processRequest st now req).2.activeRequests = akeys st.activeRequests ∧
      (processRequest st now req).2.recentRequests = st.recentRequests ∧
      (processRequest st now req).2.mergeableGroups = st.mergeableGroups) ∧
    (∀ (st : DedupState) (now : Int) (active : ActiveRequest) (result : Except Str Value),
      ((completeRequest st now active result).2.map Prod.fst) =
        active.responseCh :: active.subscribers ∧
      ∃ resp : DedupeResponse, ∀ d ∈ (completeRequest st now active result).2, d.2 = resp) := by
  constructor
  · intro st now req active h
    refine ⟨?_, ?_, ?_, ?_⟩ <;> simp [processRequest, h, akeys_aupdate_some _ h]
  · intro st now active result
    constructor
    · have : ∀ (r : DedupeResponse) (l : List Nat),
          (l.map (fun ch => (ch, r))).map Prod.fst = l := by
        intro r l; induction l with
        | nil => rfl
        | cons a t ih => simp [ih]
      simp only [completeRequest]
      exact this _ _
    · refine ⟨(match result with
        | .ok v => ⟨some v, none, false, false⟩
        | .error e => ⟨none, some e, false, false⟩), ?_⟩
      intro d hd
      simp only [completeRequest, List.mem_map] at hd
      obtain ⟨ch, _, rfl⟩ := hd
      rfl

/-- Witness for C2 at a concrete state holding one active record with one
subscriber. -/
theorem C2_dedup_single_flight_witness :
    processRequest
        { activeRequests :=
            [({ model := "m".toList, maxTokens := 1, messages := [], system := [], tools := [],
                stream := false, temperature := none, metadata := [] },
              { request := { model := "m".toList, maxTokens := 1, messages := [], system := [],
                             tools := [], stream := false, temperature := none, metadata := [] },
                responseCh := 0, subscribers := [], startTime := 0,
                requestHash := { model := "m".toList, maxTokens := 1, messages := [], system := [],
                                 tools := [], stream := false, temperature := none,
                                 metadata := [] } })],
          recentRequests := [], mergeableGroups := [], nextChannel := 1 } 0
        { model := "m".toList, maxTokens := 1, messages := [], system := [], tools := [],
          stream := false, temperature := none, metadata := [] } =
      (.subscribed 1,
       { activeRequests :=
            [({ model := "m".toList, maxTokens := 1, messages := [], system := [], tools := [],
                stream := false, temperature := none, metadata := [] },
              { request := { model := "m".toList, maxTokens := 1, messages := [], system := [],
                             tools := [], stream := false, temperature := none, metadata := [] },
                responseCh := 0, subscribers := [1], startTime := 0,
                requestHash := { model := "m".toList, maxTokens := 1, messages := [], system := [],
                                 tools := [], stream := false, temperature := none,
                                 metadata := [] } })],
          recentRequests := [], mergeableGroups := [], nextChannel := 2 }) := by
  have h := (C2_dedup_single_flight.1
    { activeRequests :=
        [({ model := "m".toList, maxTokens := 1, messages := [], system := [], tools := [],
            stream := false, temperature := none, metadata := [] },
          { request := { model := "m".toList, maxTokens := 1, messages := [], system := [],
                         tools := [], stream := false, temperature := none, metadata := [] },
            responseCh := 0, subscribers := [], startTime := 0,
            requestHash := { model := "m".toList, maxTokens := 1, messages := [], system := [],
                             tools := [], stream := false, temperature := none,
                             metadata := [] } })],
      recentRequests := [], mergeableGroups := [], nextChannel := 1 } 0
    { model := "m".toList, maxTokens := 1, messages := [], system := [], tools := [],
      stream := false, temperature := none, metadata := [] }
    { request := { model := "m".toList, maxTokens := 1, messages := [], system := [],
                   tools := [], stream := false, temperature := none, metadata := [] },
      responseCh := 0, subscribers := [], startTime := 0,
      requestHash := { model := "m".toList, maxTokens := 1, messages := [], system := [],
                       tools := [], stream := false, temperature := none,
                       metadata := [] } } (by decide)).1
  simpa [aupdate, generateRequestHash] using h

/-! ## C4: errors are never cached, successes are -/

/-- **C4**: when an in-flight execution completes with an error, neither a
recent record nor any mergeable-group response is written; when it
completes successfully, the hash's recent record holds the result and the
family group's cached response is the result. -/
theorem C4_error_results_never_cached (st : DedupState) (now : Int) (active : ActiveRequest) :
    (∀ e : Str,
      (completeRequest st now active (.error e)).1.recentRequests = st.recentRequests ∧
      (completeRequest st now active (.error e)).1.mergeableGroups = st.mergeableGroups) ∧
    (∀ v : Value,
      alookup active.requestHash (completeRequest st now active (.ok v)).1.recentRequests =
        some { request := active.request, response := v, timestamp := now } ∧
      ∃ group : MergeableGroup,
        alookup (generateMergeKey active.request)
            (completeRequest st now active (.ok v)).1.mergeableGroups = some group ∧
        group.responseCache = some v) := by
  constructor
  · intro e
    simp [completeRequest, updateMergeableGroup]
  · intro v
    constructor
    · simp only [completeRequest, updateMergeableGroup]
      cases h : alookup (generateMergeKey active.request) st.mergeableGroups <;>
        simp [h, alookup_aupdate_self]
    · simp only [completeRequest, updateMergeableGroup]
      cases h : alookup (generateMergeKey active.request) st.mergeableGroups with
      | none =>
        refine ⟨⟨active.request, [active.request], now, 1, some v⟩, ?_, rfl⟩
        simp [h, alookup_aupdate_self]
      | some group =>
        refine ⟨{ group with responseCache := some v, lastMerged := now }, ?_, rfl⟩
        simp [h, alookup_aupdate_self]

/-! ## C10: cache keys cover only model, messages and max-tokens -/

/-- **C10**: the response-cache key and the predictive-cache key are
computed from the model, messages and max-tokens fields only, so two
non-streaming requests agreeing on those fields — whatever their system
prompts, tools, temperature or metadata — get identical keys, and a `Get`
for one can return the response stored under the other. -/
theorem C10_cache_key_ignores_other_fields (r1 r2 : AnthropicRequest)
    (hm : r1.model = r2.model) (hmsg : r1.messages = r2.messages)
    (hmax : r1.maxTokens = r2.maxTokens) (hs1 : r1.stream = false) (hs2 : r2.stream = false) :
    generateCacheKey r1 = generateCacheKey r2 ∧
    pcGenerateKey r1 = pcGenerateKey r2 ∧
    (∀ (rc : ResponseCache) (now later : Int) (resp : Value),
      r1.messages ≠ [] → later - now ≤ rc.ttl →
      rcGet (rcSet rc now r1 resp) later r2 = (some resp, true)) := by
  refine ⟨by simp [generateCacheKey, hm, hmsg, hmax, hs1, hs2],
          by simp [pcGenerateKey, hm, hmsg, hmax], ?_⟩
  intro rc now later resp hne httl
  have hk1 : generateCacheKey r1 = some ⟨r1.model, r1.messages, r1.maxTokens⟩ := by
    simp [generateCacheKey, hs1, hne]
  have hk2 : generateCacheKey r2 = some ⟨r1.model, r1.messages, r1.maxTokens⟩ := by
    simp [generateCacheKey, hs2, hm, hmsg, hmax, hmsg ▸ hne]
  simp only [rcSet, rcGet, hs1, hs2, hk1, hk2, Bool.false_eq_true, if_false,
    alookup_aupdate_self]
  have : ¬ later - now > rc.ttl := by omega
  simp [this]

/-- Witness for C10: two concrete requests differing in system prompt,
tools, temperature and metadata cross-hit in the response cache. -/
theorem C10_cache_key_ignores_other_fields_witness :
    rcGet
        (rcSet { cache := [], maxSize := 1000, ttl := 10 * 60 } 0
          { model := "m".toList, maxTokens := 5,
            messages := [⟨"user".toList, .text "hi".toList⟩],
            system := [⟨"text".toList, "be brief".toList⟩], tools := [],
            stream := false, temperature := none, metadata := [] }
          "resp".toList) 0
        { model := "m".toList, maxTokens := 5,
          messages := [⟨"user".toList, .text "hi".toList⟩],
          system := [], tools := [⟨"t".toList, "d".toList, "s".toList⟩],
          stream := false, temperature := some 1, metadata := [("k".toList, "v".toList)] } =
      (some "resp".toList, true) :=
  (C10_cache_key_ignores_other_fields
    { model := "m".toList, maxTokens := 5,
      messages := [⟨"user".toList, .text "hi".toList⟩],
      system := [⟨"text".toList, "be brief".toList⟩], tools := [],
      stream := false, temperature := none, metadata := [] }
    { model := "m".toList, maxTokens := 5,
      messages := [⟨"user".toList, .text "hi".toList⟩],
      system := [], tools := [⟨"t".toList, "d".toList, "s".toList⟩],
      stream := false, temperature := some 1, metadata := [("k".toList, "v".toList)] }
    rfl rfl rfl rfl rfl).2.2
    { cache := [], maxSize := 1000, ttl := 10 * 60 } 0 0 "resp".toList
    (by decide) (by decide)

/-! ## C1: the fuzzy-match path of the predictive cache is dead code -/

theorem pcJaccardSimilarity_self (t : Str) : pcJaccardSimilarity t t = 1 := by
  unfold pcJaccardSimilarity
  by_cases h : fieldsOf t = []
  · simp [h]
  · have hinter : ((fieldsOf t).dedup.filter (fun w => w ∈ (fieldsOf t).dedup)).length =
        (fieldsOf t).dedup.length := by
      rw [List.filter_eq_self.mpr]
      intro a ha; simpa using ha
    have houter : ((fieldsOf t).dedup.filter (fun w => w ∉ (fieldsOf t).dedup)).length = 0 := by
      rw [List.length_eq_zero, List.filter_eq_nil_iff]
      intro a ha; simpa using ha
    have hpos : (fieldsOf t).dedup.length ≠ 0 := by
      simp [List.length_eq_zero, h]
    simp only [h, and_self, if_false, or_false, if_neg h, hinter, houter, Nat.add_zero]
    rw [if_neg hpos]
    rw [div_self (by exact_mod_cast hpos)]

theorem pcContentSimilarity_self (msgs : List Message) : pcContentSimilarity msgs msgs = 1 := by
  unfold pcContentSimilarity
  by_cases h : msgs = []
  · simp [h]
  · simp [h, pcJaccardSimilarity_self]

/-- **C1** (failing input): `parseKeyToRequest` returns `none` for every
key, so the similarity scan of `findSimilarRequest` can never produce a
match: on any exact-key miss, `Get` returns a miss.  At the concrete
failing input, the lone non-expired stored entry has request similarity
1.0 ≥ 0.8 to the queried request, yet `Get` misses. -/
theorem C1_fuzzy_match_never_hits :
    (∀ (cache : List (CacheKeyData × PredictiveCacheEntry)) (now : Int)
        (req : AnthropicRequest) (threshold : ℚ),
      findSimilarRequest cache now req threshold = (none, 0)) ∧
    calculateSimilarity samplePCReq2 samplePCReq1 = 1 ∧
    pcGenerateKey samplePCReq2 ≠ pcGenerateKey samplePCReq1 ∧
    pcIsExpired 0 samplePCEntry = false ∧
    pcGet [(pcGenerateKey samplePCReq1, samplePCEntry)] predictiveSimilarityThreshold 0
        samplePCReq2 = (none, false, 0) := by
  have hdead : ∀ (cache : List (CacheKeyData × PredictiveCacheEntry)) (now : Int)
      (req : AnthropicRequest) (threshold : ℚ),
      findSimilarRequest cache now req threshold = (none, 0) := by
    intro cache now req threshold
    have : ∀ l : List (CacheKeyData × PredictiveCacheEntry),
        l.foldl (findSimilarStep now req threshold) (none, 0) = (none, 0) := by
      intro l
      induction l with
      | nil => rfl
      | cons p rest ih =>
        have hstep : findSimilarStep now req threshold (none, 0) p = (none, 0) := by
          unfold findSimilarStep parseKeyToRequest
          split <;> rfl
        simpa [List.foldl, hstep] using ih
    exact this cache
  have hsim : calculateSimilarity samplePCReq2 samplePCReq1 = 1 := by
    have hmsgs : samplePCReq2.messages = samplePCReq1.messages := rfl
    unfold calculateSimilarity
    rw [hmsgs, pcContentSimilarity_self]
    norm_num [samplePCReq1, samplePCReq2]
  refine ⟨hdead, hsim, by decide, by decide, ?_⟩
  have hd := hdead [(pcGenerateKey samplePCReq1, samplePCEntry)] 0 samplePCReq2
    predictiveSimilarityThreshold
  have hne : pcGenerateKey samplePCReq2 ≠ pcGenerateKey samplePCReq1 := by decide
  simp [pcGet, hd, alookup, hne]

/-! ## C3: LRU-with-frequency-tiebreak eviction -/

theorem alookup_of_mem {α β : Type} [DecidableEq α] {k : α} {v : β} {l : List (α × β)}
    (h : (k, v) ∈ l) : ∃ w, alookup k l = some w := by
  induction l with
  | nil => simp at h
  | cons p rest ih =>
    by_cases hk : k = p.1
    · exact ⟨p.2, by simp [alookup, hk]⟩
    · rcases List.mem_cons.mp h with h | h
      · cases h; exact absurd rfl hk
      · simpa [alookup, hk] using ih h

theorem alookup_aerase_none {α β : Type} [DecidableEq α] {k : α} (k' : α) {l : List (α × β)}
    (h : alookup k l = none) : alookup k (aerase k' l) = none := by
  induction l with
  | nil => simpa [aerase] using h
  | cons p rest ih =>
    by_cases hk : k = p.1
    · simp [alookup, hk] at h
    · simp only [alookup, if_neg hk] at h
      by_cases hk' : k' = p.1
      · simp [aerase, hk', h]
      · simp [aerase, hk', alookup, hk, ih h]

theorem lruScan_mem (l : List (CacheKeyData × CacheEntry)) (best : CacheKeyData × CacheEntry) :
    lruScan best l ∈ best :: l := by
  induction l generalizing best with
  | nil => simp [lruScan]
  | cons q rest ih =>
    unfold lruScan
    split
    · have := ih q
      rcases List.mem_cons.mp this with h | h
      · simp [h]
      · simp [List.mem_cons, Or.inr (Or.inr h)]
    · have := ih best
      rcases List.mem_cons.mp this with h | h
      · simp [h]
      · simp [List.mem_cons, Or.inr (Or.inr h)]

theorem lruScan_min (l : List (CacheKeyData × CacheEntry)) (best : CacheKeyData × CacheEntry) :
    ∀ p ∈ best :: l,
      (lruScan best l).2.accessCount ≤ p.2.accessCount ∧
      (p.2.accessCount = (lruScan best l).2.accessCount →
        (lruScan best l).2.createdAt ≤ p.2.createdAt) := by
  induction l generalizing best with
  | nil =>
    intro p hp
    simp at hp
    subst hp
    simp [lruScan]
  | cons q rest ih =>
    intro p hp
    unfold lruScan
    split
    case isTrue hc =>
      rcases List.mem_cons.mp hp with hpb | hp'
      · have hq := ih q q (List.mem_cons_self q rest)
        have hq1 := hq.1
        rw [hpb]
        constructor
        · rcases hc with hc | hc <;> omega
        · intro hba
          rcases hc with hc | hc
          · omega
          · have := hq.2 (by omega)
            omega
      · exact ih q p hp'
    case isFalse hc =>
      push_neg at hc
      have hb := ih best best (List.mem_cons_self best rest)
      rcases List.mem_cons.mp hp with hpb | hp'
      · rw [hpb]
        exact ⟨hb.1, hb.2⟩
      · rcases List.mem_cons.mp hp' with hpq | hp''
        · rw [hpq]
          constructor
          · have h3 := hb.1
            have h1 := hc.1
            omega
          · intro hqa
            have h1 := hc.1
            have h2 := hc.2
            have h3 := hb.1
            by_cases he : q.2.accessCount = best.2.accessCount
            · have := h2 he
              have := hb.2 (by omega)
              omega
            · omega
        · exact ih best p (List.mem_cons_of_mem best hp'')

theorem evictLRU_length {l : List (CacheKeyData × CacheEntry)} (h : 0 < l.length) :
    (evictLRU l).length + 1 = l.length := by
  cases l with
  | nil => simp at h
  | cons p rest =>
    have hmem := lruScan_mem rest p
    obtain ⟨w, hw⟩ := alookup_of_mem (k := (lruScan p rest).1) (v := (lruScan p rest).2)
      (by rw [Prod.mk.eta]; exact hmem)
    simpa [evictLRU, lruVictim] using aerase_length_some hw

/-- **C3**: a `Set` of a fresh key into a response cache holding exactly
`maxSize` entries evicts exactly one entry — one whose access count is
minimal, with ties broken by the oldest creation time — leaving exactly
`maxSize` entries; and in general no `Set` can push a cache above its
capacity. -/
theorem C3_responseCache_lru_eviction :
    (∀ (rc : ResponseCache) (now : Int) (req : AnthropicRequest) (resp : Value)
        (key : CacheKeyData),
      generateCacheKey req = some key → alookup key rc.cache = none →
      rc.cache.length = rc.maxSize → 0 < rc.maxSize →
      ∃ victim ∈ rc.cache,
        (rcSet rc now req resp).cache =
          aupdate key ⟨resp, now, 1⟩ (aerase victim.1 rc.cache) ∧
        (∀ p ∈ rc.cache, victim.2.accessCount ≤ p.2.accessCount ∧
          (p.2.accessCount = victim.2.accessCount → victim.2.createdAt ≤ p.2.createdAt)) ∧
        (rcSet rc now req resp).cache.length = rc.maxSize) ∧
    (∀ (rc : ResponseCache) (now : Int) (req : AnthropicRequest) (resp : Value),
      rc.cache.length ≤ rc.maxSize → 0 < rc.maxSize →
      (rcSet rc now req resp).cache.length ≤ rc.maxSize) := by
  constructor
  · intro rc now req resp key hkey habsent hfull hpos
    have hstream : req.stream = false := by
      by_contra h
      rw [Bool.not_eq_false] at h
      simp [generateCacheKey, h] at hkey
    have hge : rc.cache.length ≥ rc.maxSize := le_of_eq hfull.symm
    have hset : (rcSet rc now req resp).cache =
        aupdate key ⟨resp, now, 1⟩ (evictLRU rc.cache) := by
      simp [rcSet, hstream, hkey, if_pos hge]
    have hnone : alookup key (evictLRU rc.cache) = none := by
      cases hc : rc.cache with
      | nil => simp [evictLRU, lruVictim, alookup]
      | cons p rest =>
        simp only [evictLRU, lruVictim]
        exact alookup_aerase_none _ (by rw [← hc]; exact habsent)
    have hlen : (rcSet rc now req resp).cache.length = rc.maxSize := by
      rw [hset, aupdate_length_none _ hnone]
      have := evictLRU_length (l := rc.cache) (by omega)
      omega
    cases hc : rc.cache with
    | nil => rw [hc] at hfull; simp at hfull; omega
    | cons p rest =>
      refine ⟨lruScan p rest, lruScan_mem rest p, ?_, ?_, hlen⟩
      · rw [hset, hc]; simp [evictLRU, lruVictim]
      · intro q hq
        exact lruScan_min rest p q hq
  · intro rc now req resp hle hpos
    unfold rcSet
    by_cases hstream : req.stream = true
    · simp only [hstream, if_true]
      exact hle
    · simp only [hstream, if_false]
      cases hkey : generateCacheKey req with
      | none => exact hle
      | some key =>
        simp only
        by_cases hge : rc.cache.length ≥ rc.maxSize
        · rw [if_pos hge]
          have h1 := aupdate_length_le key (⟨resp, now, 1⟩ : CacheEntry) (evictLRU rc.cache)
          have h2 := evictLRU_length (l := rc.cache) (by omega)
          simp only [Bool.false_eq_true, if_false]
          omega
        · rw [if_neg hge]
          have h1 := aupdate_length_le key (⟨resp, now, 1⟩ : CacheEntry) rc.cache
          simp only [Bool.false_eq_true, if_false]
          omega

/-- Witness for C3: a two-entry cache at capacity 2; the `Set` of a third
key keeps the size at 2 (one entry was evicted). -/
theorem C3_responseCache_lru_eviction_witness :
    (rcSet
        { cache :=
            [(⟨"m".toList, [⟨"user".toList, .text "a".toList⟩], 1⟩,
              ⟨"r1".toList, 0, 2⟩),
             (⟨"m".toList, [⟨"user".toList, .text "b".toList⟩], 1⟩,
              ⟨"r2".toList, 5, 1⟩)],
          maxSize := 2, ttl := 10 * 60 } 7
        { model := "m".toList, maxTokens := 1,
          messages := [⟨"user".toList, .text "c".toList⟩],
          system := [], tools := [], stream := false, temperature := none, metadata := [] }
        "r3".toList).cache.length = 2 := by
  obtain ⟨v, hv, h1, h2, h3⟩ :=
    C3_responseCache_lru_eviction.1
      { cache :=
          [(⟨"m".toList, [⟨"user".toList, .text "a".toList⟩], 1⟩,
            ⟨"r1".toList, 0, 2⟩),
           (⟨"m".toList, [⟨"user".toList, .text "b".toList⟩], 1⟩,
            ⟨"r2".toList, 5, 1⟩)],
        maxSize := 2, ttl := 10 * 60 } 7
      { model := "m".toList, maxTokens := 1,
        messages := [⟨"user".toList, .text "c".toList⟩],
        system := [], tools := [], stream := false, temperature := none, metadata := [] }
      "r3".toList
      ⟨"m".toList, [⟨"user".toList, .text "c".toList⟩], 1⟩
      (by decide) (by decide) rfl (by decide)
  exact h3

/-! ## C5: joining a mergeable group -/

/-- **C5**: a request with no active record and no fresh recent record
that finds a group under its own family signature — same model,
message-count difference at most 2, last-user-message text similarity
strictly above 0.7 — within the 5-minute merge window is appended to the
group's variation ring (capped at 10, oldest dropped), the merge counter
is bumped, and the group's cached response, when present, is returned
immediately tagged from-cache and merged. -/
theorem C5_group_merge (st : DedupState) (now : Int) (req : AnthropicRequest)
    (group : MergeableGroup)
    (hactive : alookup (generateRequestHash req) st.activeRequests = none)
    (hrecent : ∀ recent, alookup (generateRequestHash req) st.recentRequests = some recent →
      ¬ now - recent.timestamp < 2 * 60)
    (hgroup : alookup (generateMergeKey req) st.mergeableGroups = some group)
    (hsig : generateMergeKey group.baseRequest = generateMergeKey req)
    (hmodel : req.model = group.baseRequest.model)
    (hcount : ((req.messages.length : Int) - (group.baseRequest.messages.length : Int)).natAbs ≤ 2)
    (hsim : calculateTextSimilarity (lastUserMessage req.messages)
        (lastUserMessage group.baseRequest.messages) > (7 : ℚ) / 10)
    (hwin : now - group.lastMerged < 5 * 60) :
    alookup (generateMergeKey req) (processRequest st now req).2.mergeableGroups =
      some { group with
              variations :=
                if (group.variations ++ [req]).length > 10 then (group.variations ++ [req]).tail
                else group.variations ++ [req],
              mergeCount := group.mergeCount + 1, lastMerged := now } ∧
    (∀ r, group.responseCache = some r →
      (processRequest st now req).1 =
        .immediate { response := some r, error := none, fromCache := true, merged := true }) := by
  have hlen : group.baseRequest.messages.length = req.messages.length :=
    congrArg MergeKey.messageCount hsig
  have hcontent : calculateContentSimilarity req group.baseRequest > (7 : ℚ) / 10 := by
    unfold calculateContentSimilarity
    by_cases hreq : req.messages = []
    · have hbase : group.baseRequest.messages = [] := by
        rw [← List.length_eq_zero, hlen, hreq]; rfl
      simp only [hreq, hbase, and_self, if_true]
      norm_num
    · have hbase : group.baseRequest.messages ≠ [] := by
        intro h
        rw [← List.length_eq_zero, hlen] at h
        exact hreq (List.length_eq_zero.mp h)
      simp only [hreq, hbase, and_false, if_false, or_self]
      exact hsim
  have hcan : canMergeWithGroup req group := ⟨hmodel, hcount, hcontent⟩
  have hrest : processRequest st now req = processMergeOrStart st now req := by
    simp only [processRequest, hactive]
    cases hrec : alookup (generateRequestHash req) st.recentRequests with
    | none => rfl
    | some recent => simp only [if_neg (hrecent recent hrec)]
  rw [hrest]
  simp only [processMergeOrStart, tryMergeRequest, hgroup]
  rw [if_pos ⟨hcan, hwin⟩]
  cases hrc : group.responseCache with
  | none =>
    simp only
    exact ⟨by simp [alookup_aupdate_self], fun r hr => by cases hr⟩
  | some r =>
    simp only
    exact ⟨by simp [alookup_aupdate_self], fun r' hr' => by cases hr'; rfl⟩

/-- Witness for C5: a one-group state whose base request equals the
incoming request; the cached response is returned as a merged cache hit. -/
theorem C5_group_merge_witness :
    (processRequest
        { activeRequests := [], recentRequests := [],
          mergeableGroups :=
            [(generateMergeKey
                { model := "m".toList, maxTokens := 1,
                  messages := [⟨"user".toList, .text "hello".toList⟩],
                  system := [], tools := [], stream := false, temperature := none,
                  metadata := [] },
              { baseRequest :=
                  { model := "m".toList, maxTokens := 1,
                    messages := [⟨"user".toList, .text "hello".toList⟩],
                    system := [], tools := [], stream := false, temperature := none,
                    metadata := [] },
                variations := [], lastMerged := 0, mergeCount := 1,
                responseCache := some "r".toList })],
          nextChannel := 0 } 0
        { model := "m".toList, maxTokens := 1,
          messages := [⟨"user".toList, .text "hello".toList⟩],
          system := [], tools := [], stream := false, temperature := none,
          metadata := [] }).1 =
      .immediate { response := some "r".toList, error := none, fromCache := true,
                   merged := true } :=
  (C5_group_merge
    { activeRequests := [], recentRequests := [],
      mergeableGroups :=
        [(generateMergeKey
            { model := "m".toList, maxTokens := 1,
              messages := [⟨"user".toList, .text "hello".toList⟩],
              system := [], tools := [], stream := false, temperature := none,
              metadata := [] },
          { baseRequest :=
              { model := "m".toList, maxTokens := 1,
                messages := [⟨"user".toList, .text "hello".toList⟩],
                system := [], tools := [], stream := false, temperature := none,
                metadata := [] },
            variations := [], lastMerged := 0, mergeCount := 1,
            responseCache := some "r".toList })],
      nextChannel := 0 } 0
    { model := "m".toList, maxTokens := 1,
      messages := [⟨"user".toList, .text "hello".toList⟩],
      system := [], tools := [], stream := false, temperature := none, metadata := [] }
    { baseRequest :=
        { model := "m".toList, maxTokens := 1,
          messages := [⟨"user".toList, .text "hello".toList⟩],
          system := [], tools := [], stream := false, temperature := none, metadata := [] },
      variations := [], lastMerged := 0, mergeCount := 1, responseCache := some "r".toList }
    rfl (fun recent h => by cases h) (by simp [alookup]) rfl rfl (by decide)
    (by simp [calculateTextSimilarity]; norm_num) (by decide)).2 "r".toList rfl

/-! ## C6: system messages and the final two messages survive -/

theorem ensureLoop_mem_output (messages : List Message) (selected : Nat → Bool) :
    ∀ (l : List (Nat × Message)) (li : Int) (st : CompressorState) (i : Nat) (msg : Message),
      (i, msg) ∈ l → selected i = true →
      msg ∈ (ensureLoop messages selected l li st).1 := by
  intro l
  induction l with
  | nil => intro li st i msg h _; simp at h
  | cons hd rest ih =>
    intro li st i msg h hsel
    obtain ⟨j, m⟩ := hd
    rcases List.mem_cons.mp h with heq | hmem
    · injection heq with h1 h2
      subst h1
      subst h2
      unfold ensureLoop
      rw [if_pos hsel]
      exact List.mem_append_right _ (List.mem_cons_self _ _)
    · unfold ensureLoop
      by_cases hj : selected j = true
      · rw [if_pos hj]
        exact List.mem_append_right _
          (List.mem_cons_of_mem _ (ih (j : Int) _ i msg hmem hsel))
      · rw [if_neg hj]
        exact ih li st i msg hmem hsel

theorem ensureEssential_keeps (st : CompressorState) (messages : List Message)
    (selectedIndices : List Nat) (i : Nat) (h : i < messages.length)
    (hsel : isSelected messages selectedIndices i = true) :
    messages.get ⟨i, h⟩ ∈ (ensureEssentialMessages st messages selectedIndices).1 := by
  apply ensureLoop_mem_output messages (isSelected messages selectedIndices)
    messages.enum (-1) st i (messages.get ⟨i, h⟩) _ hsel
  rw [List.mk_mem_enum_iff_getElem?]
  simp [List.getElem?_eq_getElem h]

/-- **C6**: every compression pass on more than two messages keeps every
system-role message and the final two messages of the original list in
the compressed output, whatever the importance scores selected. -/
theorem C6_essentials_survive (cfg : CompressorConfig) (st : CompressorState)
    (messages : List Message) (hlen : 2 < messages.length) :
    (∀ m ∈ messages, m.role = "system".toList → m ∈ (performCompression cfg st messages).1) ∧
    (∀ i : Fin messages.length, messages.length ≤ i.val + 2 →
      messages.get i ∈ (performCompression cfg st messages).1) := by
  have hout : (performCompression cfg st messages).1 =
      (ensureEssentialMessages st messages
        (selectImportantMessages messages
          ((calculateMessageImportance messages).insertionSort (fun a b => a.score ≥ b.score))
          (((calculateTotalLength messages : ℚ) * cfg.compressionRatio).floor).toNat)).1 := by
    unfold performCompression
    rw [if_neg (by omega)]
  rw [hout]
  constructor
  · intro m hm hrole
    obtain ⟨n, hn⟩ := List.mem_iff_get.mp hm
    rw [← hn]
    apply ensureEssential_keeps
    have hget : messages.get ⟨(n : Nat), n.isLt⟩ = m := by rw [← hn]
    have hsys : (match messages.get? (n : Nat) with
        | some mm => decide (mm.role = "system".toList)
        | none => false) = true := by
      rw [List.get?_eq_get n.isLt]
      simp only [hget, hrole, decide_eq_true_eq]
    unfold isSelected
    rw [hsys]
    simp
  · intro i hi
    apply ensureEssential_keeps
    have h2 : 2 ≤ messages.length := by omega
    have hcase : i.val = messages.length - 1 ∨ i.val = messages.length - 2 := by omega
    unfold isSelected
    rcases hcase with h | h <;> simp [h, h2]

/-- Witness for C6: in a four-message conversation, the leading system
message survives compression. -/
theorem C6_essentials_survive_witness :
    (⟨"system".toList, .text "rules".toList⟩ : Message) ∈
      (performCompression contextCompressor ⟨[], []⟩
        [⟨"system".toList, .text "rules".toList⟩,
         ⟨"user".toList, .text "aaa".toList⟩,
         ⟨"assistant".toList, .text "bbb".toList⟩,
         ⟨"user".toList, .text "ccc".toList⟩]).1 :=
  (C6_essentials_survive contextCompressor ⟨[], []⟩
    [⟨"system".toList, .text "rules".toList⟩,
     ⟨"user".toList, .text "aaa".toList⟩,
     ⟨"assistant".toList, .text "bbb".toList⟩,
     ⟨"user".toList, .text "ccc".toList⟩] (by decide)).1
    ⟨"system".toList, .text "rules".toList⟩ (by decide) rfl

/-! ## C9: the textSimilarity formula -/

theorem levMatrix_diag (s : Str) : ∀ i : Nat, levMatrix s s i i = 0 := by
  intro i
  induction i with
  | zero => simp [levMatrix]
  | succ i ih =>
    unfold levMatrix
    simp [ih]

theorem levenshteinDistance_eq_spec (a b : Str) (ha : a ≠ []) (hb : b ≠ []) :
    levenshteinDistance a b = specEditDistance a b := by
  unfold levenshteinDistance specEditDistance
  rw [if_neg ha, if_neg hb]
  have h1 : (if a.length > 500 then a.take 500 else a) = a.take 500 := by
    split
    · rfl
    · next h => rw [List.take_of_length_le (by omega)]
  have h2 : (if b.length > 500 then b.take 500 else b) = b.take 500 := by
    split
    · rfl
    · next h => rw [List.take_of_length_le (by omega)]
  simp only [h1, h2]

theorem specEditDistance_self (a : Str) : specEditDistance a a = 0 := by
  unfold specEditDistance
  exact levMatrix_diag _ _

/-- **C9** (counterexample): for a 501-character first argument and an
empty second argument, `calculateTextSimilarity` returns 0 while the
spec's formula `1 - editDistance/max(len,len)` (with truncation to 500)
yields `1 - 500/501 ≠ 0`, so the claimed unrestricted equality fails. -/
theorem C9_formula_counterexample :
    calculateTextSimilarity longA [] = 0 ∧
    specTextSimilarity longA [] = 1 - 500 / 501 ∧
    calculateTextSimilarity longA [] ≠ specTextSimilarity longA [] := by
  have hl : List.length longA = 501 := by rw [longA, List.length_replicate]
  have hne : longA ≠ [] := by
    intro h
    rw [h] at hl
    simp at hl
  have h1 : calculateTextSimilarity longA [] = 0 := by
    unfold calculateTextSimilarity
    rw [if_neg (by simpa using hne), if_pos (Or.inr rfl)]
  have hlen : (longA.take 500).length = 500 := by
    rw [List.length_take, hl]
    omega
  have h2 : specEditDistance longA [] = 500 := by
    unfold specEditDistance
    simp only [List.take_nil, List.length_nil]
    rw [show levMatrix (longA.take 500) ([] : Str) (longA.take 500).length 0 =
      (longA.take 500).length by simp [levMatrix], hlen]
  have h3 : specTextSimilarity longA [] = 1 - 500 / 501 := by
    unfold specTextSimilarity
    rw [h2, hl]
    norm_num
  exact ⟨h1, h3, by rw [h1, h3]; norm_num⟩

/-- **C9** (amended): the formula
`textSimilarity(a,b) = 1 - editDistance(a,b)/max(len a, len b)` holds
whenever `a = b` or both inputs are nonempty; moreover
`textSimilarity(s,s) = 1`, two empty strings give 1, and exactly one
empty argument gives 0 (even where the formula would not). -/
theorem C9_textSimilarity_amended :
    (∀ a b : Str, a = b ∨ (a ≠ [] ∧ b ≠ []) →
      calculateTextSimilarity a b =
        1 - (specEditDistance a b : ℚ) / ((max a.length b.length : Nat) : ℚ)) ∧
    (∀ s : Str, calculateTextSimilarity s s = 1) ∧
    calculateTextSimilarity [] [] = 1 ∧
    (∀ s : Str, s ≠ [] → calculateTextSimilarity [] s = 0 ∧ calculateTextSimilarity s [] = 0) := by
  have hself : ∀ s : Str, calculateTextSimilarity s s = 1 := by
    intro s
    unfold calculateTextSimilarity
    rw [if_pos rfl]
  refine ⟨?_, hself, hself [], ?_⟩
  · intro a b h
    rcases h with rfl | ⟨ha, hb⟩
    · rw [hself, specEditDistance_self]
      simp
    · by_cases hab : a = b
      · subst hab
        rw [hself, specEditDistance_self]
        simp
      · unfold calculateTextSimilarity
        rw [if_neg hab, if_neg (by simp [ha, hb])]
        have hmax : ¬ max a.length b.length = 0 := by
          have : 0 < a.length := List.length_pos.mpr ha
          omega
        rw [if_neg hmax, levenshteinDistance_eq_spec a b ha hb]
  · intro s hs
    constructor
    · unfold calculateTextSimilarity
      rw [if_neg (fun h => hs h.symm), if_pos (Or.inl rfl)]
    · unfold calculateTextSimilarity
      rw [if_neg hs, if_pos (Or.inr rfl)]

/-- Witness for the amended C9 at two concrete nonempty strings. -/
theorem C9_textSimilarity_amended_witness :
    calculateTextSimilarity "ab".toList "ax".toList =
      1 - (specEditDistance "ab".toList "ax".toList : ℚ) /
        ((max "ab".toList.length "ax".toList.length : Nat) : ℚ) :=
  C9_textSimilarity_amended.1 "ab".toList "ax".toList (Or.inr ⟨by decide, by decide⟩)

/-! ## C8: what the run summaries actually name -/

theorem mem_qualifiedOccurrences {w : Str} {run : List Message}
    (h : w ∈ qualifiedOccurrences run) : 3 < w.length ∧ isImportantWord w = true := by
  unfold qualifiedOccurrences at h
  rw [List.mem_flatten] at h
  obtain ⟨l, hl, hw⟩ := h
  rw [List.mem_map] at hl
  obtain ⟨m, _, rfl⟩ := hl
  have := List.of_mem_filter hw
  simpa using this

/-- **C8** (counterexample): on `sampleRun`, the summary names
`aaaa, bbbb, cccc` — the alphabetically first three terms occurring at
least twice — and omits `zzzz` even though `zzzz` occurs three times and
every named term only twice, so the summary does not name the top-3 most
frequent terms. -/
theorem C8_top3_counterexample :
    summaryTopics sampleRun = ["aaaa".toList, "bbbb".toList, "cccc".toList] ∧
    (qualifiedOccurrences sampleRun).count "zzzz".toList = 3 ∧
    (qualifiedOccurrences sampleRun).count "aaaa".toList = 2 ∧
    "zzzz".toList ∉ summaryTopics sampleRun ∧
    generateSimpleSummary sampleRun = "跳过了1条关于aaaa、bbbb、cccc的消息".toList := by
  refine ⟨by decide, by decide, by decide, by decide, by decide⟩

/-- **C8** (amended): the placeholder for an excluded run is a single
system-role message whose summary names at most three terms: the
alphabetically first three among the lowercased whitespace-split terms
longer than 3 characters that are not stopwords and occur at least twice
in the run (not the most frequent ones); when no term qualifies, the
summary only reports the number of skipped messages. -/
theorem C8_summary_amended (run : List Message) (hne : run ≠ []) :
    (summaryTopics run).length ≤ 3 ∧
    (summaryTopics run).Sorted (· ≤ ·) ∧
    (∀ w ∈ summaryTopics run,
      3 < w.length ∧ isImportantWord w = true ∧ 2 ≤ (qualifiedOccurrences run).count w) ∧
    (∀ w ∈ (qualifiedOccurrences run).dedup, 2 ≤ (qualifiedOccurrences run).count w →
      w ∉ summaryTopics run →
      (summaryTopics run).length = 3 ∧ ∀ t ∈ summaryTopics run, t ≤ w) ∧
    (summaryTopics run ≠ [] →
      generateSimpleSummary run =
        "跳过了".toList ++ (Nat.repr run.length).toList ++ "条关于".toList ++
          List.intercalate "、".toList (summaryTopics run) ++ "的消息".toList) ∧
    (summaryTopics run = [] →
      generateSimpleSummary run =
        "跳过了".toList ++ (Nat.repr run.length).toList ++ "条消息".toList) ∧
    (∀ st : CompressorState, alookup run st.summaryCache = none →
      (summarize st run).1 = generateSimpleSummary run) ∧
    (∀ s : Str, (placeholderMessage s).role = "system".toList) := by
  have hsorted : (((qualifiedOccurrences run).dedup.filter
      (fun w => 2 ≤ (qualifiedOccurrences run).count w)).insertionSort (· ≤ ·)).Sorted
      (· ≤ ·) := List.sorted_insertionSort _ _
  have hmem_sorted : ∀ w, w ∈ ((qualifiedOccurrences run).dedup.filter
      (fun w => 2 ≤ (qualifiedOccurrences run).count w)).insertionSort (· ≤ ·) ↔
      (w ∈ (qualifiedOccurrences run).dedup ∧ 2 ≤ (qualifiedOccurrences run).count w) := by
    intro w
    rw [List.mem_insertionSort, List.mem_filter]
    simp
  have htops : summaryTopics run =
      (if (((qualifiedOccurrences run).dedup.filter
          (fun w => 2 ≤ (qualifiedOccurrences run).count w)).insertionSort (· ≤ ·)).length > 3
       then (((qualifiedOccurrences run).dedup.filter
          (fun w => 2 ≤ (qualifiedOccurrences run).count w)).insertionSort (· ≤ ·)).take 3
       else ((qualifiedOccurrences run).dedup.filter
          (fun w => 2 ≤ (qualifiedOccurrences run).count w)).insertionSort (· ≤ ·)) := rfl
  have hsub : ∀ w ∈ summaryTopics run, w ∈ ((qualifiedOccurrences run).dedup.filter
      (fun w => 2 ≤ (qualifiedOccurrences run).count w)).insertionSort (· ≤ ·) := by
    intro w hw
    rw [htops] at hw
    split at hw
    · exact (List.take_sublist _ _).mem hw
    · exact hw
  refine ⟨?_, ?_, ?_, ?_, ?_, ?_, ?_, fun s => rfl⟩
  · rw [htops]
    split
    · simp [List.length_take]
    · omega
  · rw [htops]
    split
    · exact hsorted.sublist (List.take_sublist _ _)
    · exact hsorted
  · intro w hw
    have h1 := (hmem_sorted w).mp (hsub w hw)
    have h2 := mem_qualifiedOccurrences (List.mem_dedup.mp h1.1)
    exact ⟨h2.1, h2.2, h1.2⟩
  · intro w hwd hwc hwn
    have hws : w ∈ ((qualifiedOccurrences run).dedup.filter
        (fun w => 2 ≤ (qualifiedOccurrences run).count w)).insertionSort (· ≤ ·) :=
      (hmem_sorted w).mpr ⟨hwd, hwc⟩
    rw [htops] at hwn ⊢
    by_cases hgt : (((qualifiedOccurrences run).dedup.filter
        (fun w => 2 ≤ (qualifiedOccurrences run).count w)).insertionSort (· ≤ ·)).length > 3
    · rw [if_pos hgt] at hwn ⊢
      constructor
      · rw [List.length_take]
        omega
      · intro t ht
        have hwdrop : w ∈ (((qualifiedOccurrences run).dedup.filter
            (fun w => 2 ≤ (qualifiedOccurrences run).count w)).insertionSort (· ≤ ·)).drop 3 := by
          have hsplit := (List.take_append_drop 3 (((qualifiedOccurrences run).dedup.filter
            (fun w => 2 ≤ (qualifiedOccurrences run).count w)).insertionSort (· ≤ ·))).symm
          rw [hsplit] at hws
          rcases List.mem_append.mp hws with h | h
          · exact absurd h hwn
          · exact h
        exact hsorted.rel_of_mem_take_of_mem_drop ht hwdrop
    · rw [if_neg hgt] at hwn
      exact absurd hws hwn
  · intro hne2
    unfold generateSimpleSummary
    rw [if_neg hne, if_neg hne2]
  · intro heq
    unfold generateSimpleSummary
    rw [if_neg hne, if_pos heq]
  · intro st hcache
    unfold summarize
    rw [if_neg hne, hcache]

/-- Witness for the amended C8 on the concrete `sampleRun`. -/
theorem C8_summary_amended_witness :
    (summaryTopics sampleRun).length ≤ 3 ∧ (summaryTopics sampleRun).Sorted (· ≤ ·) :=
  ⟨(C8_summary_amended sampleRun (by decide)).1,
   (C8_summary_amended sampleRun (by decide)).2.1⟩

end Kiro
